import Mathlib

/-!
Verification of the `--import` CLI command of six-cities.

A shallow embedding of `src/cli/commands/import.command.ts` and of the
ingestion pipeline it drives: a backpressure-gated line source
(`TSVFileReader`), a line parser (`createOffer`), a find-or-create owner
resolver (`DefaultUserService.findOrCreate`), an unconditional listing
creator (`DefaultOfferService.create`), and a database connection
(`MongoDatabaseClient`).

Only `import.command.ts` is present in the repository slice; the
collaborators are modelled from the specification (each such definition is
marked `Modelled from the spec:`).  A run is embedded as a deterministic
function from an environment (connection outcome, file contents) to a
final store state, an event trace (a ghost record of the observable
actions, each tagged with the line index it belongs to), and a run
outcome.  JavaScript exception values are modelled by `JsValue`
(Error-with-message versus any other thrown value), and the JavaScript
behaviour of an unhandled rejection inside the `line` handler — the
acknowledgment callback is never invoked, so the reader's `await` never
settles — is modelled by the `stalled` outcome.
-/

namespace SixCities

/-- A JavaScript thrown value: either an `Error` carrying a message, or a
non-`Error` value (the `err instanceof Error` test in `execute`
distinguishes exactly these two). -/
inductive JsValue where
  | error (msg : String)
  | nonError (tag : String)
deriving DecidableEq, Repr

/-- Modelled from the spec: the positional parse failure of the
RecordParser (`ParseError\x7bfieldIndex, expected, actual\x7d`); the parser
itself (`createOffer`) is not under `src/`. -/
structure ParseError where
  fieldIndex : Nat
  expected : String
  actual : String
deriving DecidableEq, Repr

/-- A latitude/longitude pair, carried through the pipeline unchanged; the
two components are kept as the raw column tokens. -/
structure Coordinates where
  latitude : String
  longitude : String
deriving DecidableEq, Repr

/-- The embedded owner profile of a parsed record: name, email, avatar
reference, owner-type token. -/
structure UserProfile where
  name : String
  email : String
  avatar : String
  type : String
deriving DecidableEq, Repr

/-- The `Offer` record produced by `createOffer` and consumed by
`ImportCommand.saveOffer` (field list as in `import.command.ts` lines
67-80 plus the embedded `user`). -/
structure Offer where
  name : String
  description : String
  city : String
  photoPreview : String
  photos : List String
  isPremium : Bool
  type : String
  roomsCount : Nat
  guestCount : Nat
  price : Nat
  features : List String
  coordinates : Coordinates
  user : UserProfile
deriving DecidableEq, Repr

/-- The DTO `saveOffer` hands to `userService.findOrCreate`: the spread of
the offer's embedded user with the `password` field set to the placeholder
(`\x7b...offer.user, password: DEFAULT_USER_PASSWORD\x7d`). -/
structure CreateUserDto where
  name : String
  email : String
  avatar : String
  type : String
  password : String
deriving DecidableEq, Repr

/-- Modelled from the spec: an owner record as persisted by the user
service — the DTO's profile fields and credential, plus the salt the
creating call received and a store-assigned identity. -/
structure StoredUser where
  id : Nat
  name : String
  email : String
  avatar : String
  type : String
  password : String
  salt : String
deriving DecidableEq, Repr

/-- Modelled from the spec: a listing record as persisted by the offer
service — the creation DTO's fields plus the owner identity passed
alongside it. -/
structure StoredOffer where
  name : String
  description : String
  city : String
  photoPreview : String
  photos : List String
  isPremium : Bool
  type : String
  roomsCount : Nat
  guestCount : Nat
  price : Nat
  features : List String
  coordinates : Coordinates
  ownerId : Nat
deriving DecidableEq, Repr

/-- Modelled from the spec: the backing store's state — the owner and
listing collections, plus a counter supplying fresh owner identities. -/
structure DBState where
  users : List StoredUser
  offers : List StoredOffer
  nextUserId : Nat
deriving DecidableEq, Repr

/-- The empty store. -/
def DBState.empty : DBState := ⟨[], [], 0⟩

/-! ## Structurally recursive embeddings of the JavaScript string
primitives the pipeline relies on (split, trim, integer coercion), so
that every definition below evaluates by kernel reduction. -/

/-- Split a character list at every occurrence of the separator; the
accumulator holds the current field reversed. -/
def splitAux (c : Char) : List Char → List Char → List String
  | [], acc => [String.mk acc.reverse]
  | x :: xs, acc =>
      if x == c then String.mk acc.reverse :: splitAux c xs []
      else splitAux c xs (x :: acc)

/-- The JavaScript `split` on a one-character separator. -/
def splitOnChar (c : Char) (s : String) : List String :=
  splitAux c s.data []

/-- The whitespace characters `trim` removes. -/
def isSpaceChar (c : Char) : Bool :=
  c == ' ' || c == '\t' || c == '\n' || c == '\r'

/-- The JavaScript `String.prototype.trim`: strip leading and trailing
whitespace. -/
def trimmed (s : String) : String :=
  String.mk (((s.data.dropWhile isSpaceChar).reverse.dropWhile
    isSpaceChar).reverse)

/-- The numeric value of a decimal digit character. -/
def digitVal? (c : Char) : Option Nat :=
  if 48 ≤ c.toNat then
    if c.toNat ≤ 57 then some (c.toNat - 48) else none
  else none

/-- Accumulate the decimal value of a digit string. -/
def natFromChars : List Char → Nat → Option Nat
  | [], acc => some acc
  | c :: cs, acc =>
      match digitVal? c with
      | some d => natFromChars cs (acc * 10 + d)
      | none => none

/-- Decimal integer coercion of a whole string; empty or non-digit
input yields `none`. -/
def parseNatString (s : String) : Option Nat :=
  match s.data with
  | [] => none
  | cs => natFromChars cs 0

/-! ## The record parser, modelled from the spec -/

/-- Modelled from the spec: the closed set of city tokens. -/
def allowedCities : List String :=
  ["Paris", "Cologne", "Brussels", "Amsterdam", "Hamburg", "Dusseldorf"]

/-- Modelled from the spec: the closed set of listing-type tokens. -/
def allowedTypes : List String := ["apartment", "house", "room", "hotel"]

/-- Modelled from the spec: the closed set of feature tokens. -/
def allowedFeatures : List String :=
  ["Breakfast", "Air conditioning", "Laptop friendly workspace",
   "Baby seat", "Washer", "Towels", "Fridge"]

/-- Modelled from the spec: the closed set of owner-type tokens. -/
def allowedUserTypes : List String := ["standard", "pro"]

/-- Modelled from the spec: boolean coercion from a fixed pair of literal
tokens; any other token is a `ParseError`, not a silent default. -/
def parseBoolToken (idx : Nat) (s : String) : Except ParseError Bool :=
  if s = "true" then .ok true
  else if s = "false" then .ok false
  else .error ⟨idx, "boolean token", s⟩

/-- Modelled from the spec: integer coercion of a column. -/
def parseNatToken (idx : Nat) (s : String) : Except ParseError Nat :=
  match parseNatString s with
  | some n => .ok n
  | none => .error ⟨idx, "integer", s⟩

/-- Modelled from the spec: enum membership check against a closed set of
allowed tokens. -/
def parseEnumToken (idx : Nat) (allowed : List String) (s : String) :
    Except ParseError String :=
  if s ∈ allowed then .ok s else .error ⟨idx, "enum token", s⟩

/-- Modelled from the spec: a list column split by the secondary delimiter
with an expected element count (fixed-arity lists such as photos). -/
def parseListToken (idx : Nat) (arity : Nat) (s : String) :
    Except ParseError (List String) :=
  let parts := splitOnChar ';' s
  if parts.length = arity then .ok parts
  else .error ⟨idx, "list of " ++ toString arity, toString parts.length⟩

/-- Modelled from the spec: the coordinate pair split by a comma into two
components. -/
def parseCoordinates (idx : Nat) (s : String) : Except ParseError Coordinates :=
  match splitOnChar ',' s with
  | [la, lo] => .ok ⟨la, lo⟩
  | parts => .error ⟨idx, "coordinate pair", toString parts.length⟩

/-- Modelled from the spec: `createOffer` (the RecordParser, in
`shared/helpers`, not under `src/`) — split the line by the tab delimiter,
require the exact column count of the pinned schema, and apply a typed
coercion per column.  Pure and deterministic. -/
def createOffer (line : String) : Except ParseError Offer :=
  match splitOnChar '\t' line with
  | [name, description, city, photoPreview, photos, isPremium, ty,
     roomsCount, guestCount, price, features, coords,
     userName, userEmail, userAvatar, userType] => do
      let city ← parseEnumToken 2 allowedCities city
      let photos ← parseListToken 4 6 photos
      let isPremium ← parseBoolToken 5 isPremium
      let ty ← parseEnumToken 6 allowedTypes ty
      let roomsCount ← parseNatToken 7 roomsCount
      let guestCount ← parseNatToken 8 guestCount
      let price ← parseNatToken 9 price
      let features ← (splitOnChar ';' features).mapM
        (parseEnumToken 10 allowedFeatures)
      let coords ← parseCoordinates 11 coords
      let userType ← parseEnumToken 15 allowedUserTypes userType
      .ok { name := name, description := description, city := city,
            photoPreview := photoPreview, photos := photos,
            isPremium := isPremium, type := ty, roomsCount := roomsCount,
            guestCount := guestCount, price := price, features := features,
            coordinates := coords,
            user := { name := userName, email := userEmail,
                      avatar := userAvatar, type := userType } }
  | parts => .error ⟨0, "16 columns", toString parts.length⟩

/-! ## The entity resolver and listing creator, modelled from the spec -/

/-- Modelled from the spec: the fixed placeholder credential
`DEFAULT_USER_PASSWORD` (declared in `command.constant.ts`, not under
`src/`); its concrete value is irrelevant to every property below. -/
def DEFAULT_USER_PASSWORD : String := "123456"

/-- The spread `\x7b...offer.user, password: DEFAULT_USER_PASSWORD\x7d`
built by `saveOffer` (lines 62-65): the embedded profile's fields with the
placeholder password. -/
def userDtoOf (offer : Offer) : CreateUserDto :=
  { name := offer.user.name, email := offer.user.email,
    avatar := offer.user.avatar, type := offer.user.type,
    password := DEFAULT_USER_PASSWORD }

/-- Modelled from the spec: `DefaultUserService.findOrCreate(dto, salt)` —
look up an existing owner by the DTO's email; if found, return the
existing identity unchanged; if not, create a new owner from the DTO's
fields and the supplied salt and return it.  The third component records
whether a creation happened. -/
def findOrCreate (db : DBState) (dto : CreateUserDto) (salt : String) :
    StoredUser × DBState × Bool :=
  match db.users.find? (fun u => u.email == dto.email) with
  | some u => (u, db, false)
  | none =>
      let u : StoredUser :=
        { id := db.nextUserId, name := dto.name, email := dto.email,
          avatar := dto.avatar, type := dto.type,
          password := dto.password, salt := salt }
      (u, { db with users := db.users ++ [u], nextUserId := db.nextUserId + 1 },
       true)

/-- The listing-creation DTO `saveOffer` passes to `offerService.create`
(lines 67-80), as stored together with the owner identity passed
alongside it.  Modelled from the spec: `DefaultOfferService.create`
persists the DTO unconditionally (no de-duplication of listings). -/
def storedOfferOf (offer : Offer) (ownerId : Nat) : StoredOffer :=
  { name := offer.name, description := offer.description,
    city := offer.city, photoPreview := offer.photoPreview,
    photos := offer.photos, isPremium := offer.isPremium,
    type := offer.type, roomsCount := offer.roomsCount,
    guestCount := offer.guestCount, price := offer.price,
    features := offer.features, coordinates := offer.coordinates,
    ownerId := ownerId }

/-! ## Events, environment and the run -/

/-- A ghost trace of the observable actions of one run.  Store and
acknowledgment events are tagged with the index of the line they belong
to (the tag is bookkeeping of the model, not data of the program). -/
inductive Event where
  | connected
  | fileOpened (path : String)
  | lineDelivered (i : Nat) (line : String)
  | userCreated (i : Nat) (email : String)
  | userReused (i : Nat) (email : String)
  | offerCreated (i : Nat)
  | ack (i : Nat)
  | summary (msg : String)
  | errorMsg (msg : String)
  | disconnected
deriving DecidableEq, Repr

/-- The method `ImportCommand.saveOffer` (lines 61-81): resolve the owner through
`findOrCreate` with the placeholder-password DTO and the run's salt, then
create the listing entity for the resolved owner's identity.  The `i`
argument only tags the ghost events with the line index. -/
def saveOffer (salt : String) (db : DBState) (i : Nat) (offer : Offer) :
    List Event × DBState :=
  let r := findOrCreate db (userDtoOf offer) salt
  let ev := if r.2.2 then Event.userCreated i r.1.email
            else Event.userReused i r.1.email
  ([ev, Event.offerCreated i],
   { r.2.1 with offers := r.2.1.offers ++ [storedOfferOf offer r.1.id] })

/-- Modelled from the spec: what one run finds at the input path — either
a clean sequence of lines followed by end of input, or a sequence of
delivered lines followed by a fatal stream error (an empty sequence with
an error covers a file that cannot be opened). -/
inductive FileBehavior where
  | ok (lines : List String)
  | failAfter (lines : List String) (e : JsValue)

/-- The environment of one run: the outcome of `databaseClient.connect`
(`some e` means the connection attempt rejects with `e`) and the contents
found at each input path. -/
structure Env where
  connectResult : Option JsValue
  file : String → FileBehavior

/-- The arguments of `ImportCommand.execute` (line 87). -/
structure RunConfig where
  filename : String
  login : String
  password : String
  host : String
  dbname : String
  salt : String

/-- How one call of `execute` terminates: its promise resolves
(`completed`), its promise rejects with a value (`raised`), or it never
settles because an unhandled rejection inside the `line` handler left the
reader awaiting an acknowledgment forever (`stalled`). -/
inductive RunOutcome where
  | completed
  | raised (e : JsValue)
  | stalled
deriving DecidableEq, Repr

/-- The observable result of one run: the ghost event trace, the final
store state, and the way `execute` terminated. -/
structure RunResult where
  trace : List Event
  db : DBState
  outcome : RunOutcome
deriving DecidableEq, Repr

/-- The gated per-line loop: the reader (modelled from the spec) delivers
line `i` together with an acknowledgment handle and awaits that handle
before delivering line `i + 1`; the handler `onImportedLine` (lines
50-54) parses the line, awaits `saveOffer`, then invokes the handle.  The
handler has no error handling: a `ParseError` escapes it as an unhandled
rejection, the handle is never invoked, and the loop never advances — the
third component is `false` when that happened. -/
def processLines (salt : String) : DBState → Nat → List String →
    List Event × DBState × Bool
  | db, _, [] => ([], db, true)
  | db, i, line :: rest =>
      match createOffer line with
      | .error _ => ([Event.lineDelivered i line], db, false)
      | .ok offer =>
          let s := saveOffer salt db i offer
          let r := processLines salt s.2 (i + 1) rest
          (Event.lineDelivered i line :: (s.1 ++ [Event.ack i] ++ r.1),
           r.2.1, r.2.2)

/-- The method `ImportCommand.execute` (lines 87-108): connect (a rejection here
propagates — the call is outside the `try`), construct the reader over
`filename.trim()`, drive the gated loop; on the `end` event
(`onCompleteImport`, lines 56-59) print the summary and disconnect; a
thrown `Error` from `read()` is caught, two error messages are printed
and `execute` resolves normally (no disconnect, no re-raise); a thrown
non-`Error` value is re-raised. -/
def execute (env : Env) (db0 : DBState) (cfg : RunConfig) : RunResult :=
  match env.connectResult with
  | some e => ⟨[], db0, .raised e⟩
  | none =>
      let path := trimmed cfg.filename
      let pre := [Event.connected, Event.fileOpened path]
      match env.file path with
      | .ok lines =>
          let r := processLines cfg.salt db0 0 lines
          if r.2.2 then
            ⟨pre ++ r.1 ++
               [Event.summary (toString lines.length ++ " rows imported."),
                Event.disconnected],
             r.2.1, .completed⟩
          else ⟨pre ++ r.1, r.2.1, .stalled⟩
      | .failAfter lines e =>
          let r := processLines cfg.salt db0 0 lines
          if r.2.2 then
            match e with
            | .error msg =>
                -- source text of the first message uses an apostrophe
                ⟨pre ++ r.1 ++
                   [Event.errorMsg
                      ("Cant import data from file: " ++ cfg.filename),
                    Event.errorMsg msg],
                 r.2.1, .completed⟩
            | .nonError t => ⟨pre ++ r.1, r.2.1, .raised (.nonError t)⟩
          else ⟨pre ++ r.1, r.2.1, .stalled⟩

/-! ## Observables of a trace -/

/-- The line indices of the acknowledgments in a trace, in trace order. -/
def acksOf (tr : List Event) : List Nat :=
  tr.filterMap fun e => match e with | .ack i => some i | _ => none

/-- The summary messages printed in a trace, in trace order. -/
def summariesOf (tr : List Event) : List String :=
  tr.filterMap fun e => match e with | .summary m => some m | _ => none

/-- The error messages printed in a trace, in trace order. -/
def errorsOf (tr : List Event) : List String :=
  tr.filterMap fun e => match e with | .errorMsg m => some m | _ => none

/-- How many times the store connection was released in a trace. -/
def disconnectsOf (tr : List Event) : Nat :=
  (tr.filter (fun e => e == Event.disconnected)).length

/-- The input paths opened in a trace, in trace order. -/
def openedPathsOf (tr : List Event) : List String :=
  tr.filterMap fun e => match e with | .fileOpened p => some p | _ => none

/-- Whether a raw line parses. -/
def parseOk (l : String) : Bool :=
  match createOffer l with | .ok _ => true | .error _ => false

/-- A well-formed file: every line parses. -/
def parsesAll (lines : List String) : Bool := lines.all parseOk

/-- The emails of the users in the store, in insertion order. -/
def userEmails (db : DBState) : List String := db.users.map (·.email)

/-- The owner emails of a list of raw lines, in line order (only the
lines that parse contribute). -/
def lineEmails (lines : List String) : List String :=
  lines.filterMap fun l =>
    match createOffer l with | .ok o => some o.user.email | .error _ => none

/-! ## Sample data for concrete runs -/

/-- A well-formed line (owner `alice`). -/
def sampleLine1 : String :=
  "Cozy flat\tNice place\tParis\tp.jpg\ta;b;c;d;e;f\ttrue\tapartment\t2\t3\t100\tWasher\t48.85,2.35\tAlice\talice@x.io\tav.jpg\tpro"

/-- A well-formed line (owner `bob`). -/
def sampleLine2 : String :=
  "Big house\tRoomy\tHamburg\tq.jpg\ta;b;c;d;e;f\tfalse\thouse\t5\t8\t900\tFridge;Towels\t53.55,9.99\tBob\tbob@x.io\tbv.jpg\tstandard"

/-- A well-formed line (owner `alice` again). -/
def sampleLine3 : String :=
  "Small room\tTiny\tParis\tr.jpg\ta;b;c;d;e;f\tfalse\troom\t1\t1\t40\tBreakfast\t48.86,2.36\tAlice\talice@x.io\tav.jpg\tpro"

/-- A malformed line (wrong column count). -/
def badLine : String := "oops"

/-- A run configuration whose filename carries surrounding whitespace. -/
def sampleCfg : RunConfig := ⟨" data.tsv ", "u", "p", "h", "db", "s3cret"⟩

/-- An environment whose every path holds a clean three-line file. -/
def sampleEnv : Env :=
  ⟨none, fun _ => .ok [sampleLine1, sampleLine2, sampleLine3]⟩

/-- An environment whose file starts with a malformed line. -/
def badLineEnv : Env := ⟨none, fun _ => .ok [badLine, sampleLine1]⟩

/-- An environment whose file delivers one line and then fails with an
I/O `Error`. -/
def streamFailEnv : Env :=
  ⟨none, fun _ => .failAfter [sampleLine1] (.error "EIO")⟩

/-- An environment whose file delivers one line and then fails with a
thrown non-`Error` value. -/
def nonErrorFailEnv : Env :=
  ⟨none, fun _ => .failAfter [sampleLine1] (.nonError "oops")⟩

/-- An environment whose store connection attempt rejects. -/
def connFailEnv : Env :=
  ⟨some (.error "connection refused"), fun _ => .ok [sampleLine1]⟩

/-- An environment whose file holds a malformed line between two
well-formed ones. -/
def midBadEnv : Env :=
  ⟨none, fun _ => .ok [sampleLine1, badLine, sampleLine2]⟩

/-- One run of the import command over the empty store. -/
def runOnce (env : Env) (cfg : RunConfig) : RunResult :=
  execute env DBState.empty cfg

/-- Two runs of the import command over the same input, the second
starting from the first one's store. -/
def runTwice (env : Env) (cfg : RunConfig) : RunResult :=
  execute env (runOnce env cfg).db cfg

/-- A concrete stored owner, for exercising `findOrCreate`. -/
def aliceUser : StoredUser :=
  ⟨0, "Alice", "alice@x.io", "av.jpg", "pro", DEFAULT_USER_PASSWORD, "s3cret"⟩

/-- A store already holding `aliceUser`. -/
def aliceDb : DBState := ⟨[aliceUser], [], 1⟩

/-- A creation DTO carrying `aliceUser`'s email but different profile
fields and credential. -/
def aliceDto : CreateUserDto :=
  ⟨"Other", "alice@x.io", "other.jpg", "standard", "unrelated"⟩

/-- The parse of `sampleLine1`, spelled out. -/
def sampleOffer1 : Offer :=
  { name := "Cozy flat", description := "Nice place", city := "Paris",
    photoPreview := "p.jpg", photos := ["a", "b", "c", "d", "e", "f"],
    isPremium := true, type := "apartment", roomsCount := 2, guestCount := 3,
    price := 100, features := ["Washer"], coordinates := ⟨"48.85", "2.35"⟩,
    user := ⟨"Alice", "alice@x.io", "av.jpg", "pro"⟩ }

/-! ## Small lemmas about the events of one record's work -/

/-- The events of one `saveOffer` call, explicitly. -/
lemma saveOffer_fst (salt : String) (db : DBState) (i : Nat) (o : Offer) :
    (saveOffer salt db i o).1 =
      [(if (findOrCreate db (userDtoOf o) salt).2.2
        then Event.userCreated i (findOrCreate db (userDtoOf o) salt).1.email
        else Event.userReused i (findOrCreate db (userDtoOf o) salt).1.email),
       Event.offerCreated i] := rfl

lemma acksOf_saveOffer (salt : String) (db : DBState) (i : Nat) (o : Offer) :
    acksOf (saveOffer salt db i o).1 = [] := by
  rw [saveOffer_fst]
  cases hc : (findOrCreate db (userDtoOf o) salt).2.2 <;> rfl

lemma summariesOf_saveOffer (salt : String) (db : DBState) (i : Nat) (o : Offer) :
    summariesOf (saveOffer salt db i o).1 = [] := by
  rw [saveOffer_fst]
  cases hc : (findOrCreate db (userDtoOf o) salt).2.2 <;> rfl

lemma errorsOf_saveOffer (salt : String) (db : DBState) (i : Nat) (o : Offer) :
    errorsOf (saveOffer salt db i o).1 = [] := by
  rw [saveOffer_fst]
  cases hc : (findOrCreate db (userDtoOf o) salt).2.2 <;> rfl

lemma disconnectsOf_saveOffer (salt : String) (db : DBState) (i : Nat) (o : Offer) :
    disconnectsOf (saveOffer salt db i o).1 = 0 := by
  rw [saveOffer_fst]
  cases hc : (findOrCreate db (userDtoOf o) salt).2.2 <;> rfl

lemma openedPathsOf_saveOffer (salt : String) (db : DBState) (i : Nat) (o : Offer) :
    openedPathsOf (saveOffer salt db i o).1 = [] := by
  rw [saveOffer_fst]
  cases hc : (findOrCreate db (userDtoOf o) salt).2.2 <;> rfl

lemma acksOf_append (a b : List Event) : acksOf (a ++ b) = acksOf a ++ acksOf b :=
  List.filterMap_append a b _

lemma summariesOf_append (a b : List Event) :
    summariesOf (a ++ b) = summariesOf a ++ summariesOf b :=
  List.filterMap_append a b _

lemma errorsOf_append (a b : List Event) :
    errorsOf (a ++ b) = errorsOf a ++ errorsOf b :=
  List.filterMap_append a b _

lemma openedPathsOf_append (a b : List Event) :
    openedPathsOf (a ++ b) = openedPathsOf a ++ openedPathsOf b :=
  List.filterMap_append a b _

lemma disconnectsOf_append (a b : List Event) :
    disconnectsOf (a ++ b) = disconnectsOf a + disconnectsOf b := by
  simp [disconnectsOf]

/-! ## The gated loop: structural lemmas -/

/-- The loop terminates cleanly exactly when every line parses. -/
lemma processLines_done (salt : String) (lines : List String) :
    ∀ (db : DBState) (i : Nat),
      (processLines salt db i lines).2.2 = parsesAll lines := by
  induction lines with
  | nil => intro db i; rfl
  | cons line rest ih =>
      intro db i
      cases h : createOffer line with
      | error e => simp [processLines, h, parsesAll, parseOk]
      | ok o =>
          have hp : parseOk line = true := by simp [parseOk, h]
          simp [processLines, h, parsesAll, hp, ih (saveOffer salt db i o).2 (i + 1),
                parsesAll]

/-- Shape of the loop on a line that parses: deliver, do the record's
work, acknowledge, continue. -/
lemma processLines_cons_ok (salt : String) (db : DBState) (i : Nat)
    (line : String) (rest : List String) (o : Offer)
    (h : createOffer line = .ok o) :
    processLines salt db i (line :: rest) =
      (Event.lineDelivered i line ::
         ((saveOffer salt db i o).1 ++ [Event.ack i] ++
            (processLines salt (saveOffer salt db i o).2 (i + 1) rest).1),
       (processLines salt (saveOffer salt db i o).2 (i + 1) rest).2) := by
  simp [processLines, h]

/-- Shape of the loop on a line that fails to parse: deliver, stall. -/
lemma processLines_cons_bad (salt : String) (db : DBState) (i : Nat)
    (line : String) (rest : List String) (e : ParseError)
    (h : createOffer line = .error e) :
    processLines salt db i (line :: rest) =
      ([Event.lineDelivered i line], db, false) := by
  simp [processLines, h]

lemma acksOf_cons (e : Event) (tr : List Event) :
    acksOf (e :: tr) = acksOf [e] ++ acksOf tr := by
  rw [← List.singleton_append, acksOf_append]

lemma summariesOf_cons (e : Event) (tr : List Event) :
    summariesOf (e :: tr) = summariesOf [e] ++ summariesOf tr := by
  rw [← List.singleton_append, summariesOf_append]

lemma errorsOf_cons (e : Event) (tr : List Event) :
    errorsOf (e :: tr) = errorsOf [e] ++ errorsOf tr := by
  rw [← List.singleton_append, errorsOf_append]

lemma openedPathsOf_cons (e : Event) (tr : List Event) :
    openedPathsOf (e :: tr) = openedPathsOf [e] ++ openedPathsOf tr := by
  rw [← List.singleton_append, openedPathsOf_append]

lemma disconnectsOf_cons (e : Event) (tr : List Event) :
    disconnectsOf (e :: tr) = disconnectsOf [e] + disconnectsOf tr := by
  rw [← List.singleton_append, disconnectsOf_append]

/-- A line that parses, as a parser success. -/
lemma exists_ok_of_parseOk {line : String} (hl : parseOk line = true) :
    ∃ o, createOffer line = .ok o := by
  revert hl
  cases h : createOffer line <;> simp [parseOk, h]

/-- On a well-formed file the acknowledgments are exactly the delivered
line indices, in increasing order. -/
lemma acksOf_processLines (salt : String) (lines : List String) :
    ∀ (db : DBState) (i : Nat), parsesAll lines = true →
      acksOf (processLines salt db i lines).1 = List.range' i lines.length := by
  induction lines with
  | nil => intro db i _; rfl
  | cons line rest ih =>
      intro db i hw
      rw [parsesAll, List.all_cons, Bool.and_eq_true] at hw
      obtain ⟨hl, hr⟩ := hw
      obtain ⟨o, ho⟩ := exists_ok_of_parseOk hl
      rw [processLines_cons_ok salt db i line rest o ho]
      rw [acksOf_cons, acksOf_append, acksOf_append, acksOf_saveOffer,
          ih (saveOffer salt db i o).2 (i + 1) (by rw [parsesAll]; exact hr)]
      simp [acksOf, List.range'_succ]

/-- The loop itself prints no summary. -/
lemma summariesOf_processLines (salt : String) (lines : List String) :
    ∀ (db : DBState) (i : Nat),
      summariesOf (processLines salt db i lines).1 = [] := by
  induction lines with
  | nil => intro db i; rfl
  | cons line rest ih =>
      intro db i
      cases h : createOffer line with
      | error e => rw [processLines_cons_bad salt db i line rest e h]; rfl
      | ok o =>
          rw [processLines_cons_ok salt db i line rest o h,
              summariesOf_cons, summariesOf_append, summariesOf_append,
              summariesOf_saveOffer, ih]
          rfl

/-- The loop itself prints no error message. -/
lemma errorsOf_processLines (salt : String) (lines : List String) :
    ∀ (db : DBState) (i : Nat),
      errorsOf (processLines salt db i lines).1 = [] := by
  induction lines with
  | nil => intro db i; rfl
  | cons line rest ih =>
      intro db i
      cases h : createOffer line with
      | error e => rw [processLines_cons_bad salt db i line rest e h]; rfl
      | ok o =>
          rw [processLines_cons_ok salt db i line rest o h,
              errorsOf_cons, errorsOf_append, errorsOf_append,
              errorsOf_saveOffer, ih]
          rfl

/-- The loop itself never releases the connection. -/
lemma disconnectsOf_processLines (salt : String) (lines : List String) :
    ∀ (db : DBState) (i : Nat),
      disconnectsOf (processLines salt db i lines).1 = 0 := by
  induction lines with
  | nil => intro db i; rfl
  | cons line rest ih =>
      intro db i
      cases h : createOffer line with
      | error e => rw [processLines_cons_bad salt db i line rest e h]; rfl
      | ok o =>
          rw [processLines_cons_ok salt db i line rest o h,
              disconnectsOf_cons, disconnectsOf_append, disconnectsOf_append,
              disconnectsOf_saveOffer, ih]
          rfl

/-- The loop itself opens no file. -/
lemma openedPathsOf_processLines (salt : String) (lines : List String) :
    ∀ (db : DBState) (i : Nat),
      openedPathsOf (processLines salt db i lines).1 = [] := by
  induction lines with
  | nil => intro db i; rfl
  | cons line rest ih =>
      intro db i
      cases h : createOffer line with
      | error e => rw [processLines_cons_bad salt db i line rest e h]; rfl
      | ok o =>
          rw [processLines_cons_ok salt db i line rest o h,
              openedPathsOf_cons, openedPathsOf_append, openedPathsOf_append,
              openedPathsOf_saveOffer, ih]
          rfl

/-! ## Store-state lemmas -/

/-- Resolving an owner never touches the listings collection. -/
lemma findOrCreate_offers (db : DBState) (dto : CreateUserDto) (salt : String) :
    (findOrCreate db dto salt).2.1.offers = db.offers := by
  cases hf : db.users.find? (fun u => u.email == dto.email) <;>
    simp [findOrCreate, hf]

/-- One record's work appends exactly its own listing. -/
lemma saveOffer_offers (salt : String) (db : DBState) (i : Nat) (o : Offer) :
    (saveOffer salt db i o).2.offers =
      db.offers ++
        [storedOfferOf o (findOrCreate db (userDtoOf o) salt).1.id] := by
  simp [saveOffer, findOrCreate_offers]

/-- A well-formed file of `N` lines creates exactly `N` listings. -/
lemma offers_length_processLines (salt : String) (lines : List String) :
    ∀ (db : DBState) (i : Nat), parsesAll lines = true →
      (processLines salt db i lines).2.1.offers.length =
        db.offers.length + lines.length := by
  induction lines with
  | nil => intro db i _; rfl
  | cons line rest ih =>
      intro db i hw
      rw [parsesAll, List.all_cons, Bool.and_eq_true] at hw
      obtain ⟨hl, hr⟩ := hw
      obtain ⟨o, ho⟩ := exists_ok_of_parseOk hl
      rw [processLines_cons_ok salt db i line rest o ho]
      have := ih (saveOffer salt db i o).2 (i + 1) (by rw [parsesAll]; exact hr)
      simp only [this, saveOffer_offers]
      simp
      omega

/-- Owner lookup fails exactly when the email is absent from the store. -/
lemma find?_email_eq_none {db : DBState} {em : String} :
    db.users.find? (fun u => u.email == em) = none ↔ em ∉ userEmails db := by
  rw [List.find?_eq_none]
  simp [userEmails]

/-- Resolving an owner whose email is already stored leaves the owner
collection untouched. -/
lemma saveOffer_users_of_mem {db : DBState} {o : Offer}
    (salt : String) (i : Nat) (hm : o.user.email ∈ userEmails db) :
    (saveOffer salt db i o).2.users = db.users := by
  cases hf : db.users.find? (fun u => u.email == o.user.email) with
  | none => exact absurd hm (find?_email_eq_none.mp hf)
  | some u => simp [saveOffer, findOrCreate, userDtoOf, hf]

/-- Resolving an owner whose email is new appends exactly one owner,
built from the profile, the placeholder password and the run's salt. -/
lemma saveOffer_users_of_not_mem {db : DBState} {o : Offer}
    (salt : String) (i : Nat) (hm : o.user.email ∉ userEmails db) :
    (saveOffer salt db i o).2.users =
      db.users ++
        [⟨db.nextUserId, o.user.name, o.user.email, o.user.avatar,
          o.user.type, DEFAULT_USER_PASSWORD, salt⟩] := by
  have hf : db.users.find? (fun u => u.email == o.user.email) = none :=
    find?_email_eq_none.mpr hm
  simp [saveOffer, findOrCreate, userDtoOf, hf]

/-- Emails present after one record's work: the old ones plus that
record's owner email. -/
lemma mem_userEmails_saveOffer {db : DBState} {o : Offer} {e : String}
    (salt : String) (i : Nat) :
    e ∈ userEmails (saveOffer salt db i o).2 ↔
      e ∈ userEmails db ∨ e = o.user.email := by
  by_cases hm : o.user.email ∈ userEmails db
  · unfold userEmails
    rw [saveOffer_users_of_mem salt i hm]
    constructor
    · exact Or.inl
    · rintro (h | rfl)
      · exact h
      · exact hm
  · unfold userEmails
    rw [saveOffer_users_of_not_mem salt i hm]
    simp [userEmails]

/-- One record's work preserves distinctness of the stored emails. -/
lemma nodup_userEmails_saveOffer {db : DBState} {o : Offer}
    (salt : String) (i : Nat) (hd : (userEmails db).Nodup) :
    (userEmails (saveOffer salt db i o).2).Nodup := by
  by_cases hm : o.user.email ∈ userEmails db
  · unfold userEmails
    rw [saveOffer_users_of_mem salt i hm]
    exact hd
  · unfold userEmails
    rw [saveOffer_users_of_not_mem salt i hm]
    rw [List.map_append, List.nodup_append]
    refine ⟨hd, List.nodup_singleton _, ?_⟩
    intro a ha hb
    simp at hb
    subst hb
    exact hm ha

/-- Every owner present after one record's work was either already
stored, or was created with the placeholder password and the run's
salt. -/
lemma mem_users_saveOffer {db : DBState} {o : Offer} {u : StoredUser}
    (salt : String) (i : Nat) (hu : u ∈ (saveOffer salt db i o).2.users) :
    u ∈ db.users ∨ (u.password = DEFAULT_USER_PASSWORD ∧ u.salt = salt) := by
  by_cases hm : o.user.email ∈ userEmails db
  · rw [saveOffer_users_of_mem salt i hm] at hu
    exact Or.inl hu
  · rw [saveOffer_users_of_not_mem salt i hm] at hu
    rcases List.mem_append.mp hu with h | h
    · exact Or.inl h
    · simp at h
      subst h
      exact Or.inr ⟨rfl, rfl⟩

/-- The owner emails of a file headed by a line that parses. -/
lemma lineEmails_cons_ok {line : String} {o : Offer} (rest : List String)
    (h : createOffer line = .ok o) :
    lineEmails (line :: rest) = o.user.email :: lineEmails rest := by
  simp [lineEmails, List.filterMap_cons, h]

/-- Emails present after the run: the old ones plus the owner emails of
the parsed lines. -/
lemma mem_userEmails_processLines (salt : String) (lines : List String) :
    ∀ (db : DBState) (i : Nat) (e : String), parsesAll lines = true →
      (e ∈ userEmails (processLines salt db i lines).2.1 ↔
        e ∈ userEmails db ∨ e ∈ lineEmails lines) := by
  induction lines with
  | nil => intro db i e _; simp [processLines, lineEmails]
  | cons line rest ih =>
      intro db i e hw
      rw [parsesAll, List.all_cons, Bool.and_eq_true] at hw
      obtain ⟨hl, hr⟩ := hw
      obtain ⟨o, ho⟩ := exists_ok_of_parseOk hl
      rw [processLines_cons_ok salt db i line rest o ho]
      rw [ih (saveOffer salt db i o).2 (i + 1) e (by rw [parsesAll]; exact hr)]
      rw [mem_userEmails_saveOffer salt i]
      simp [lineEmails, List.filterMap_cons, ho]
      tauto

/-- The run preserves distinctness of the stored emails. -/
lemma nodup_userEmails_processLines (salt : String) (lines : List String) :
    ∀ (db : DBState) (i : Nat), (userEmails db).Nodup →
      (userEmails (processLines salt db i lines).2.1).Nodup := by
  induction lines with
  | nil => intro db i hd; exact hd
  | cons line rest ih =>
      intro db i hd
      cases h : createOffer line with
      | error e => rw [processLines_cons_bad salt db i line rest e h]; exact hd
      | ok o =>
          rw [processLines_cons_ok salt db i line rest o h]
          exact ih (saveOffer salt db i o).2 (i + 1)
            (nodup_userEmails_saveOffer salt i hd)

/-- A run over lines whose owner emails are all already stored creates
no owner at all. -/
lemma users_processLines_of_covered (salt : String) (lines : List String) :
    ∀ (db : DBState) (i : Nat),
      (∀ e ∈ lineEmails lines, e ∈ userEmails db) →
      (processLines salt db i lines).2.1.users = db.users := by
  induction lines with
  | nil => intro db i _; rfl
  | cons line rest ih =>
      intro db i hcov
      cases h : createOffer line with
      | error e => rw [processLines_cons_bad salt db i line rest e h]
      | ok o =>
          rw [processLines_cons_ok salt db i line rest o h]
          have hmem : o.user.email ∈ userEmails db :=
            hcov _ (by rw [lineEmails_cons_ok rest h]; exact List.mem_cons_self _ _)
          have husers : (saveOffer salt db i o).2.users = db.users :=
            saveOffer_users_of_mem salt i hmem
          have hemails : userEmails (saveOffer salt db i o).2 = userEmails db := by
            unfold userEmails
            rw [husers]
          rw [ih (saveOffer salt db i o).2 (i + 1)
                (fun e he => by
                  rw [hemails]
                  exact hcov e (by rw [lineEmails_cons_ok rest h]
                                   exact List.mem_cons_of_mem _ he)),
              husers]

/-- Every owner present after the run was either already stored, or was
created with the placeholder password and the run's salt. -/
lemma users_processLines_password (salt : String) (lines : List String) :
    ∀ (db : DBState) (i : Nat) (u : StoredUser),
      u ∈ (processLines salt db i lines).2.1.users →
      u ∈ db.users ∨ (u.password = DEFAULT_USER_PASSWORD ∧ u.salt = salt) := by
  induction lines with
  | nil => intro db i u hu; exact Or.inl hu
  | cons line rest ih =>
      intro db i u hu
      cases h : createOffer line with
      | error e =>
          rw [processLines_cons_bad salt db i line rest e h] at hu
          exact Or.inl hu
      | ok o =>
          rw [processLines_cons_ok salt db i line rest o h] at hu
          rcases ih (saveOffer salt db i o).2 (i + 1) u hu with h2 | h2
          · exact mem_users_saveOffer salt i h2
          · exact Or.inr h2

/-- A line that fails to parse, as a parser failure. -/
lemma exists_error_of_parse_bad {line : String} (hl : parseOk line = false) :
    ∃ e, createOffer line = .error e := by
  revert hl
  cases h : createOffer line <;> simp [parseOk, h]

/-- Decomposition of a run over a file whose first malformed line sits
after a well-formed prefix: the prefix is fully processed, the bad line
is delivered, then the loop stalls with the prefix's store state. -/
lemma processLines_stall (salt : String) (good : List String) :
    ∀ (db : DBState) (i : Nat) (bad : String) (rest : List String),
      parsesAll good = true → parseOk bad = false →
      processLines salt db i (good ++ bad :: rest) =
        ((processLines salt db i good).1 ++
           [Event.lineDelivered (i + good.length) bad],
         (processLines salt db i good).2.1, false) := by
  induction good with
  | nil =>
      intro db i bad rest _ hb
      obtain ⟨e, he⟩ := exists_error_of_parse_bad hb
      rw [List.nil_append, processLines_cons_bad salt db i bad rest e he]
      simp [processLines]
  | cons g good' ih =>
      intro db i bad rest hw hb
      rw [parsesAll, List.all_cons, Bool.and_eq_true] at hw
      obtain ⟨hl, hr⟩ := hw
      obtain ⟨o, ho⟩ := exists_ok_of_parseOk hl
      rw [List.cons_append, processLines_cons_ok salt db i (g) _ o ho,
          processLines_cons_ok salt db i g good' o ho,
          ih (saveOffer salt db i o).2 (i + 1) bad rest
            (by rw [parsesAll]; exact hr) hb]
      have harith : i + 1 + good'.length = i + (good'.length + 1) := by omega
      simp [harith]

/-- Every delivered-line event of the loop carries an index in the range
of the processed lines. -/
lemma lineDelivered_mem_bound (salt : String) (lines : List String) :
    ∀ (db : DBState) (i j : Nat) (l' : String),
      Event.lineDelivered j l' ∈ (processLines salt db i lines).1 →
      i ≤ j ∧ j < i + lines.length := by
  induction lines with
  | nil => intro db i j l' h; exact absurd h (List.not_mem_nil _)
  | cons line rest ih =>
      intro db i j l' hmem
      cases h : createOffer line with
      | error e =>
          rw [processLines_cons_bad salt db i line rest e h] at hmem
          have : j = i := by
            rcases List.mem_singleton.mp hmem with heq
            cases heq
            rfl
          subst this
          simp
      | ok o =>
          rw [processLines_cons_ok salt db i line rest o h] at hmem
          rcases List.mem_cons.mp hmem with heq | hmem2
          · cases heq
            simp
          · rcases List.mem_append.mp hmem2 with hmem3 | hmem4
            · rcases List.mem_append.mp hmem3 with hmem5 | hmem6
              · rw [saveOffer_fst] at hmem5
                exfalso
                revert hmem5
                cases hc : (findOrCreate db (userDtoOf o) salt).2.2 <;> simp
              · exact absurd (List.mem_singleton.mp hmem6) (by simp)
            · have := ih (saveOffer salt db i o).2 (i + 1) j l' hmem4
              constructor
              · omega
              · simp only [List.length_cons]
                omega

/-- For every processed line, the trace contains its listing-creation
event and then its acknowledgment, in that order. -/
lemma sublist_work_ack (salt : String) (lines : List String) :
    ∀ (db : DBState) (i k : Nat), parsesAll lines = true → k < lines.length →
      List.Sublist [Event.offerCreated (i + k), Event.ack (i + k)]
        (processLines salt db i lines).1 := by
  induction lines with
  | nil => intro db i k _ hk; exact absurd hk (by simp)
  | cons line rest ih =>
      intro db i k hw hk
      rw [parsesAll, List.all_cons, Bool.and_eq_true] at hw
      obtain ⟨hl, hr⟩ := hw
      obtain ⟨o, ho⟩ := exists_ok_of_parseOk hl
      rw [processLines_cons_ok salt db i line rest o ho, saveOffer_fst]
      cases k with
      | zero =>
          rw [Nat.add_zero]
          exact .cons _ (.cons _ (.cons₂ _ (.cons₂ _ (List.nil_sublist _))))
      | succ k =>
          have hk' : k < rest.length := by
            simp only [List.length_cons] at hk
            omega
          have ihr := ih (saveOffer salt db i o).2 (i + 1) k
            (by rw [parsesAll]; exact hr) hk'
          have harith : i + (k + 1) = i + 1 + k := by omega
          rw [harith]
          exact .cons _ (.cons _ (.cons _ (.cons _ ihr)))

/-- For every processed line that has a successor, the trace contains its
listing-creation event, its acknowledgment, and only then the delivery of
the next line — the loop never advances early. -/
lemma sublist_ack_next (salt : String) (lines : List String) :
    ∀ (db : DBState) (i k : Nat) (l' : String), parsesAll lines = true →
      lines.get? (k + 1) = some l' →
      List.Sublist
        [Event.offerCreated (i + k), Event.ack (i + k),
         Event.lineDelivered (i + k + 1) l']
        (processLines salt db i lines).1 := by
  induction lines with
  | nil => intro db i k l' _ hg; exact absurd hg (by simp)
  | cons line rest ih =>
      intro db i k l' hw hg
      rw [parsesAll, List.all_cons, Bool.and_eq_true] at hw
      obtain ⟨hl, hr⟩ := hw
      obtain ⟨o, ho⟩ := exists_ok_of_parseOk hl
      rw [processLines_cons_ok salt db i line rest o ho, saveOffer_fst]
      cases k with
      | zero =>
          cases rest with
          | nil => exact absurd hg (by simp)
          | cons l₂ rest₂ =>
              have hl2 : l₂ = l' := by simpa using hg
              subst hl2
              have hr' : parseOk l₂ = true ∧ parsesAll rest₂ = true := by
                rw [parsesAll]
                rw [List.all_cons, Bool.and_eq_true] at hr
                exact hr
              obtain ⟨o₂, ho₂⟩ := exists_ok_of_parseOk hr'.1
              rw [processLines_cons_ok salt _ (i + 1) l₂ rest₂ o₂ ho₂]
              rw [Nat.add_zero]
              exact .cons _ (.cons _ (.cons₂ _ (.cons₂ _
                (.cons₂ _ (List.nil_sublist _)))))
      | succ k =>
          have hg' : rest.get? (k + 1) = some l' := by simpa using hg
          have ihr := ih (saveOffer salt db i o).2 (i + 1) k l'
            (by rw [parsesAll]; exact hr) hg'
          have h1 : i + (k + 1) = i + 1 + k := by omega
          rw [h1]
          exact .cons _ (.cons _ (.cons _ (.cons _ ihr)))

/-! ## Terminal-path lemmas for `execute` -/

/-- A rejected connection attempt: `execute` rejects with that error at
once — the trace is empty and the store is untouched. -/
lemma execute_connFail {env : Env} (db0 : DBState) (cfg : RunConfig)
    {e : JsValue} (h : env.connectResult = some e) :
    execute env db0 cfg = ⟨[], db0, .raised e⟩ := by
  simp [execute, h]

/-- The normal terminal path: clean end of input over a well-formed
file. -/
lemma execute_ok {env : Env} (db0 : DBState) (cfg : RunConfig)
    {lines : List String} (h1 : env.connectResult = none)
    (h2 : env.file (trimmed cfg.filename) = .ok lines)
    (hw : parsesAll lines = true) :
    execute env db0 cfg =
      ⟨[Event.connected, Event.fileOpened (trimmed cfg.filename)] ++
         (processLines cfg.salt db0 0 lines).1 ++
         [Event.summary (toString lines.length ++ " rows imported."),
          Event.disconnected],
       (processLines cfg.salt db0 0 lines).2.1, .completed⟩ := by
  simp [execute, h1, h2, processLines_done, hw]

/-- The stalled terminal path: a file whose lines do not all parse. -/
lemma execute_ok_stall {env : Env} (db0 : DBState) (cfg : RunConfig)
    {lines : List String} (h1 : env.connectResult = none)
    (h2 : env.file (trimmed cfg.filename) = .ok lines)
    (hw : parsesAll lines = false) :
    execute env db0 cfg =
      ⟨[Event.connected, Event.fileOpened (trimmed cfg.filename)] ++
         (processLines cfg.salt db0 0 lines).1,
       (processLines cfg.salt db0 0 lines).2.1, .stalled⟩ := by
  simp [execute, h1, h2, processLines_done, hw]

/-- The fatal-stream-error terminal path for an `Error` value: the two
error messages are printed and `execute` resolves normally. -/
lemma execute_failAfter_error {env : Env} (db0 : DBState) (cfg : RunConfig)
    {lines : List String} {msg : String} (h1 : env.connectResult = none)
    (h2 : env.file (trimmed cfg.filename) = .failAfter lines (.error msg))
    (hw : parsesAll lines = true) :
    execute env db0 cfg =
      ⟨[Event.connected, Event.fileOpened (trimmed cfg.filename)] ++
         (processLines cfg.salt db0 0 lines).1 ++
         [Event.errorMsg ("Cant import data from file: " ++ cfg.filename),
          Event.errorMsg msg],
       (processLines cfg.salt db0 0 lines).2.1, .completed⟩ := by
  simp [execute, h1, h2, processLines_done, hw]

/-- The fatal-stream-error terminal path for a non-`Error` value: the
value is re-raised. -/
lemma execute_failAfter_nonError {env : Env} (db0 : DBState) (cfg : RunConfig)
    {lines : List String} {t : String} (h1 : env.connectResult = none)
    (h2 : env.file (trimmed cfg.filename) = .failAfter lines (.nonError t))
    (hw : parsesAll lines = true) :
    execute env db0 cfg =
      ⟨[Event.connected, Event.fileOpened (trimmed cfg.filename)] ++
         (processLines cfg.salt db0 0 lines).1,
       (processLines cfg.salt db0 0 lines).2.1, .raised (.nonError t)⟩ := by
  simp [execute, h1, h2, processLines_done, hw]

/-- The stalled terminal path inside a file that would later fail: the
stall happens first. -/
lemma execute_failAfter_stall {env : Env} (db0 : DBState) (cfg : RunConfig)
    {lines : List String} {e : JsValue} (h1 : env.connectResult = none)
    (h2 : env.file (trimmed cfg.filename) = .failAfter lines e)
    (hw : parsesAll lines = false) :
    execute env db0 cfg =
      ⟨[Event.connected, Event.fileOpened (trimmed cfg.filename)] ++
         (processLines cfg.salt db0 0 lines).1,
       (processLines cfg.salt db0 0 lines).2.1, .stalled⟩ := by
  simp [execute, h1, h2, processLines_done, hw]

/-- An acknowledgment event occurs in a trace exactly when its index
occurs among the trace's acknowledgment indices. -/
lemma ack_mem_iff {k : Nat} {tr : List Event} :
    Event.ack k ∈ tr ↔ k ∈ acksOf tr := by
  unfold acksOf
  rw [List.mem_filterMap]
  constructor
  · intro h
    exact ⟨Event.ack k, h, rfl⟩
  · rintro ⟨e, he, hfe⟩
    cases e <;> simp_all

/-- A sublist of the middle third is a sublist of the whole. -/
lemma sublist_middle {α : Type} {t mid : List α} (pre suf : List α)
    (h : List.Sublist t mid) : List.Sublist t (pre ++ mid ++ suf) :=
  (h.trans (List.sublist_append_right pre mid)).trans
    (List.sublist_append_left (pre ++ mid) suf)

/-- Whenever the connection succeeds, the run opens exactly one input
path: the trimmed filename. -/
lemma openedPathsOf_execute (env : Env) (db0 : DBState) (cfg : RunConfig)
    (h1 : env.connectResult = none) :
    openedPathsOf (execute env db0 cfg).trace = [trimmed cfg.filename] := by
  cases hfile : env.file (trimmed cfg.filename) with
  | ok lines =>
      cases hw : parsesAll lines with
      | true =>
          rw [execute_ok db0 cfg h1 hfile hw, openedPathsOf_append,
              openedPathsOf_append, openedPathsOf_processLines]
          rfl
      | false =>
          rw [execute_ok_stall db0 cfg h1 hfile hw, openedPathsOf_append,
              openedPathsOf_processLines]
          rfl
  | failAfter lines e =>
      cases hw : parsesAll lines with
      | true =>
          cases e with
          | error msg =>
              rw [execute_failAfter_error db0 cfg h1 hfile hw,
                  openedPathsOf_append, openedPathsOf_append,
                  openedPathsOf_processLines]
              rfl
          | nonError t =>
              rw [execute_failAfter_nonError db0 cfg h1 hfile hw,
                  openedPathsOf_append, openedPathsOf_processLines]
              rfl
      | false =>
          rw [execute_failAfter_stall db0 cfg h1 hfile hw,
              openedPathsOf_append, openedPathsOf_processLines]
          rfl

/-! ## Claim theorems -/

/-- Claim C5: if opening the store connection at the start of `execute`
fails, the run fails with that connection error before any line is read —
the trace is empty (no file opened, no line delivered) and the store is
untouched (zero listings and zero owners created). -/
theorem connect_failure_atomic (env : Env) (db0 : DBState) (cfg : RunConfig)
    (e : JsValue) (h : env.connectResult = some e) :
    (execute env db0 cfg).outcome = .raised e ∧
    (execute env db0 cfg).trace = [] ∧
    (execute env db0 cfg).db = db0 := by
  rw [execute_connFail db0 cfg h]
  exact ⟨rfl, rfl, rfl⟩

/-- Witness for C5 at a concrete environment whose connection attempt is
refused. -/
theorem connect_failure_atomic_witness :
    (execute connFailEnv DBState.empty sampleCfg).outcome =
        .raised (.error "connection refused") ∧
    (execute connFailEnv DBState.empty sampleCfg).trace = [] ∧
    (execute connFailEnv DBState.empty sampleCfg).db = DBState.empty :=
  connect_failure_atomic connFailEnv DBState.empty sampleCfg
    (.error "connection refused") rfl

/-- Claim C9: on normal end of input the run prints exactly one summary
message, of the form `<count> rows imported.`, where the count is the
total number of lines the source delivered. -/
theorem summary_message (env : Env) (db0 : DBState) (cfg : RunConfig)
    (lines : List String) (h1 : env.connectResult = none)
    (h2 : env.file (trimmed cfg.filename) = .ok lines)
    (hw : parsesAll lines = true) :
    summariesOf (execute env db0 cfg).trace =
      [toString lines.length ++ " rows imported."] := by
  rw [execute_ok db0 cfg h1 h2 hw, summariesOf_append, summariesOf_append,
      summariesOf_processLines]
  rfl

/-- Witness for C9: the three-line sample file reports
`3 rows imported.` exactly once. -/
theorem summary_message_witness :
    summariesOf (execute sampleEnv DBState.empty sampleCfg).trace =
      ["3 rows imported."] :=
  summary_message sampleEnv DBState.empty sampleCfg
    [sampleLine1, sampleLine2, sampleLine3] rfl rfl (by rfl)

/-- Claim C7: every owner created during an import run is created from
the parsed profile's fields together with the fixed placeholder password
and the salt supplied to that run's `execute` call — no password from the
input ever reaches the store. -/
theorem placeholder_credential_policy (env : Env) (db0 : DBState)
    (cfg : RunConfig) (u : StoredUser)
    (hu : u ∈ (execute env db0 cfg).db.users) :
    u ∈ db0.users ∨
      (u.password = DEFAULT_USER_PASSWORD ∧ u.salt = cfg.salt) := by
  cases hconn : env.connectResult with
  | some e =>
      rw [execute_connFail db0 cfg hconn] at hu
      exact Or.inl hu
  | none =>
      cases hfile : env.file (trimmed cfg.filename) with
      | ok lines =>
          cases hw : parsesAll lines with
          | true =>
              rw [execute_ok db0 cfg hconn hfile hw] at hu
              exact users_processLines_password cfg.salt lines db0 0 u hu
          | false =>
              rw [execute_ok_stall db0 cfg hconn hfile hw] at hu
              exact users_processLines_password cfg.salt lines db0 0 u hu
      | failAfter lines e =>
          cases hw : parsesAll lines with
          | true =>
              cases e with
              | error msg =>
                  rw [execute_failAfter_error db0 cfg hconn hfile hw] at hu
                  exact users_processLines_password cfg.salt lines db0 0 u hu
              | nonError t =>
                  rw [execute_failAfter_nonError db0 cfg hconn hfile hw] at hu
                  exact users_processLines_password cfg.salt lines db0 0 u hu
          | false =>
              rw [execute_failAfter_stall db0 cfg hconn hfile hw] at hu
              exact users_processLines_password cfg.salt lines db0 0 u hu

/-- Witness for C7: the owner created for the sample file's first line
carries the placeholder password and the run's salt. -/
theorem placeholder_credential_policy_witness :
    aliceUser ∈ DBState.empty.users ∨
      (aliceUser.password = DEFAULT_USER_PASSWORD ∧
       aliceUser.salt = sampleCfg.salt) :=
  placeholder_credential_policy sampleEnv DBState.empty sampleCfg aliceUser
    (by decide)

/-- Claim C8: for a successfully parsed line, the owner is resolved
first and only then is the listing created — the listing-creation call
receives all the parsed record's fields and the resolved owner's
identity, and the store state it runs in is the one the resolution
produced. -/
theorem owner_then_listing (salt : String) (db : DBState) (i : Nat)
    (l : String) (offer : Offer) (_h : createOffer l = .ok offer) :
    (saveOffer salt db i offer).2.offers =
        db.offers ++
          [storedOfferOf offer (findOrCreate db (userDtoOf offer) salt).1.id] ∧
    (saveOffer salt db i offer).2.users =
        (findOrCreate db (userDtoOf offer) salt).2.1.users ∧
    (saveOffer salt db i offer).1 =
        [(if (findOrCreate db (userDtoOf offer) salt).2.2
          then Event.userCreated i (findOrCreate db (userDtoOf offer) salt).1.email
          else Event.userReused i (findOrCreate db (userDtoOf offer) salt).1.email),
         Event.offerCreated i] ∧
    ∀ oid : Nat,
      (storedOfferOf offer oid).name = offer.name ∧
      (storedOfferOf offer oid).description = offer.description ∧
      (storedOfferOf offer oid).city = offer.city ∧
      (storedOfferOf offer oid).photoPreview = offer.photoPreview ∧
      (storedOfferOf offer oid).photos = offer.photos ∧
      (storedOfferOf offer oid).isPremium = offer.isPremium ∧
      (storedOfferOf offer oid).type = offer.type ∧
      (storedOfferOf offer oid).roomsCount = offer.roomsCount ∧
      (storedOfferOf offer oid).guestCount = offer.guestCount ∧
      (storedOfferOf offer oid).price = offer.price ∧
      (storedOfferOf offer oid).features = offer.features ∧
      (storedOfferOf offer oid).coordinates = offer.coordinates ∧
      (storedOfferOf offer oid).ownerId = oid := by
  refine ⟨saveOffer_offers salt db i offer, rfl, saveOffer_fst salt db i offer,
    fun oid => ⟨rfl, rfl, rfl, rfl, rfl, rfl, rfl, rfl, rfl, rfl, rfl, rfl, rfl⟩⟩

/-- Witness for C8 at the sample file's first line, over the empty
store. -/
theorem owner_then_listing_witness :
    ((saveOffer "s3cret" DBState.empty 0 sampleOffer1).2.offers =
      DBState.empty.offers ++
        [storedOfferOf sampleOffer1
          (findOrCreate DBState.empty (userDtoOf sampleOffer1) "s3cret").1.id]) ∧
    (storedOfferOf sampleOffer1 0).ownerId = 0 := by
  have h := owner_then_listing "s3cret" DBState.empty 0 sampleLine1
    sampleOffer1 (by rfl)
  exact ⟨h.1, (h.2.2.2 0).2.2.2.2.2.2.2.2.2.2.2.2⟩

/-- Claim C2: single in-flight record and backpressure ordering — for a
well-formed file of `N` lines the run issues exactly `N` acknowledgments
in strictly increasing line order; each line's acknowledgment comes only
after that line's creation work, and the next line is delivered only
after it. -/
theorem backpressure_ordering (env : Env) (db0 : DBState) (cfg : RunConfig)
    (lines : List String) (h1 : env.connectResult = none)
    (h2 : env.file (trimmed cfg.filename) = .ok lines)
    (hw : parsesAll lines = true) :
    acksOf (execute env db0 cfg).trace = List.range lines.length ∧
    (∀ k, k < lines.length →
      List.Sublist [Event.offerCreated k, Event.ack k]
        (execute env db0 cfg).trace) ∧
    (∀ k l', lines.get? (k + 1) = some l' →
      List.Sublist
        [Event.offerCreated k, Event.ack k, Event.lineDelivered (k + 1) l']
        (execute env db0 cfg).trace) := by
  rw [execute_ok db0 cfg h1 h2 hw]
  refine ⟨?_, ?_, ?_⟩
  · rw [acksOf_append, acksOf_append, acksOf_processLines cfg.salt lines db0 0 hw,
        List.range_eq_range']
    simp [acksOf]
  · intro k hk
    have h := sublist_work_ack cfg.salt lines db0 0 k hw hk
    rw [Nat.zero_add] at h
    exact sublist_middle _ _ h
  · intro k l' hg
    have h := sublist_ack_next cfg.salt lines db0 0 k l' hw hg
    rw [Nat.zero_add] at h
    exact sublist_middle _ _ h

/-- Witness for C2 at the three-line sample file. -/
theorem backpressure_ordering_witness :
    acksOf (execute sampleEnv DBState.empty sampleCfg).trace = List.range 3 ∧
    List.Sublist [Event.offerCreated 1, Event.ack 1]
      (execute sampleEnv DBState.empty sampleCfg).trace ∧
    List.Sublist
      [Event.offerCreated 0, Event.ack 0, Event.lineDelivered 1 sampleLine2]
      (execute sampleEnv DBState.empty sampleCfg).trace := by
  obtain ⟨ha, hb, hc⟩ := backpressure_ordering sampleEnv DBState.empty
    sampleCfg [sampleLine1, sampleLine2, sampleLine3] rfl rfl (by rfl)
  exact ⟨ha, hb 1 (by decide), hc 0 sampleLine2 rfl⟩

/-- Claim C6: owner resolution is idempotent and first-seen-wins — a
resolution against an existing email returns the stored record unchanged
and creates nothing, and importing the same well-formed file twice yields
exactly one owner per distinct email across both runs (no owner added by
the second run) while the listing count doubles. -/
theorem owner_resolution_idempotent :
    (∀ (db : DBState) (dto : CreateUserDto) (s : String) (u : StoredUser),
        db.users.find? (fun x => x.email == dto.email) = some u →
        findOrCreate db dto s = (u, db, false)) ∧
    (∀ (env : Env) (cfg : RunConfig) (lines : List String),
        env.connectResult = none →
        env.file (trimmed cfg.filename) = .ok lines →
        parsesAll lines = true →
        (userEmails (runTwice env cfg).db).Nodup ∧
        (∀ e, e ∈ userEmails (runTwice env cfg).db ↔ e ∈ lineEmails lines) ∧
        (runTwice env cfg).db.users = (runOnce env cfg).db.users ∧
        (runTwice env cfg).db.offers.length = 2 * lines.length) := by
  constructor
  · intro db dto s u hf
    simp [findOrCreate, hf]
  · intro env cfg lines h1 h2 hw
    have hr1 : (runOnce env cfg).db =
        (processLines cfg.salt DBState.empty 0 lines).2.1 := by
      rw [runOnce, execute_ok DBState.empty cfg h1 h2 hw]
    have hr2 : (runTwice env cfg).db =
        (processLines cfg.salt (runOnce env cfg).db 0 lines).2.1 := by
      rw [runTwice, execute_ok (runOnce env cfg).db cfg h1 h2 hw]
    have mem1 : ∀ e, e ∈ userEmails (runOnce env cfg).db ↔ e ∈ lineEmails lines := by
      intro e
      rw [hr1, mem_userEmails_processLines cfg.salt lines DBState.empty 0 e hw]
      simp [userEmails, DBState.empty]
    have cover : ∀ e ∈ lineEmails lines, e ∈ userEmails (runOnce env cfg).db :=
      fun e he => (mem1 e).mpr he
    have husers : (runTwice env cfg).db.users = (runOnce env cfg).db.users := by
      rw [hr2]
      exact users_processLines_of_covered cfg.salt lines (runOnce env cfg).db 0 cover
    have hemails : userEmails (runTwice env cfg).db =
        userEmails (runOnce env cfg).db := by
      unfold userEmails
      rw [husers]
    refine ⟨?_, ?_, husers, ?_⟩
    · rw [hemails, hr1]
      exact nodup_userEmails_processLines cfg.salt lines DBState.empty 0
        (by simp [userEmails, DBState.empty])
    · intro e
      rw [hemails]
      exact mem1 e
    · rw [hr2, offers_length_processLines cfg.salt lines (runOnce env cfg).db 0 hw,
          hr1, offers_length_processLines cfg.salt lines DBState.empty 0 hw]
      show DBState.empty.offers.length + lines.length + lines.length = _
      simp [DBState.empty]
      omega

/-- Witness for C6: resolving `aliceDto` against a store already holding
`aliceUser` returns the stored record unchanged, and the double import of
the three-line, two-email sample file keeps two owners and reaches six
listings. -/
theorem owner_resolution_idempotent_witness :
    findOrCreate aliceDb aliceDto "anotherSalt" = (aliceUser, aliceDb, false) ∧
    (runTwice sampleEnv sampleCfg).db.users =
      (runOnce sampleEnv sampleCfg).db.users ∧
    (runTwice sampleEnv sampleCfg).db.offers.length = 2 * 3 ∧
    ("alice@x.io" ∈ userEmails (runTwice sampleEnv sampleCfg).db ↔
      "alice@x.io" ∈ lineEmails [sampleLine1, sampleLine2, sampleLine3]) := by
  obtain ⟨hfirst, hrun⟩ := owner_resolution_idempotent
  obtain ⟨_, hmem, husers, hlen⟩ := hrun sampleEnv sampleCfg
    [sampleLine1, sampleLine2, sampleLine3] rfl rfl (by rfl)
  exact ⟨hfirst aliceDb aliceDto "anotherSalt" aliceUser rfl, husers, hlen,
    hmem "alice@x.io"⟩

/-- Claim C10: `execute` strips surrounding whitespace from the filename
before constructing the reader — the opened path is always the trimmed
filename, and two path arguments with the same trim lead the run to read
the same input file (same opened path, same store result, same
outcome). -/
theorem filename_trimmed :
    (∀ (env : Env) (db0 : DBState) (cfg : RunConfig),
        env.connectResult = none →
        openedPathsOf (execute env db0 cfg).trace = [trimmed cfg.filename]) ∧
    (∀ (env : Env) (db0 : DBState) (cfg : RunConfig) (f2 : String),
        trimmed cfg.filename = trimmed f2 →
        openedPathsOf (execute env db0 { cfg with filename := f2 }).trace =
          openedPathsOf (execute env db0 cfg).trace ∧
        (execute env db0 { cfg with filename := f2 }).db =
          (execute env db0 cfg).db ∧
        (execute env db0 { cfg with filename := f2 }).outcome =
          (execute env db0 cfg).outcome) := by
  constructor
  · exact openedPathsOf_execute
  · intro env db0 cfg f2 htrim
    have hpath : trimmed f2 = trimmed cfg.filename := htrim.symm
    cases hconn : env.connectResult with
    | some e =>
        rw [execute_connFail db0 cfg hconn,
            execute_connFail db0 ({ cfg with filename := f2 }) hconn]
        exact ⟨rfl, rfl, rfl⟩
    | none =>
        have hopen : openedPathsOf
            (execute env db0 { cfg with filename := f2 }).trace =
            openedPathsOf (execute env db0 cfg).trace := by
          rw [openedPathsOf_execute env db0 _ hconn,
              openedPathsOf_execute env db0 cfg hconn]
          show [trimmed f2] = _
          rw [hpath]
        have hrest : (execute env db0 { cfg with filename := f2 }).db =
              (execute env db0 cfg).db ∧
            (execute env db0 { cfg with filename := f2 }).outcome =
              (execute env db0 cfg).outcome := by
          cases hfile : env.file (trimmed cfg.filename) with
          | ok lines =>
              have hfile2 : env.file
                  (trimmed ({ cfg with filename := f2 } : RunConfig).filename) =
                  .ok lines := by
                show env.file (trimmed f2) = _
                rw [hpath]
                exact hfile
              cases hw : parsesAll lines with
              | true =>
                  rw [execute_ok db0 cfg hconn hfile hw,
                      execute_ok db0 _ hconn hfile2 hw]
                  exact ⟨rfl, rfl⟩
              | false =>
                  rw [execute_ok_stall db0 cfg hconn hfile hw,
                      execute_ok_stall db0 _ hconn hfile2 hw]
                  exact ⟨rfl, rfl⟩
          | failAfter lines e =>
              have hfile2 : env.file
                  (trimmed ({ cfg with filename := f2 } : RunConfig).filename) =
                  .failAfter lines e := by
                show env.file (trimmed f2) = _
                rw [hpath]
                exact hfile
              cases hw : parsesAll lines with
              | true =>
                  cases e with
                  | error msg =>
                      rw [execute_failAfter_error db0 cfg hconn hfile hw,
                          execute_failAfter_error db0 _ hconn hfile2 hw]
                      exact ⟨rfl, rfl⟩
                  | nonError t =>
                      rw [execute_failAfter_nonError db0 cfg hconn hfile hw,
                          execute_failAfter_nonError db0 _ hconn hfile2 hw]
                      exact ⟨rfl, rfl⟩
              | false =>
                  rw [execute_failAfter_stall db0 cfg hconn hfile hw,
                      execute_failAfter_stall db0 _ hconn hfile2 hw]
                  exact ⟨rfl, rfl⟩
        exact ⟨hopen, hrest.1, hrest.2⟩

/-- Witness for C10: the sample configuration's padded filename opens
`data.tsv`, and padding the filename differently leaves the store result
unchanged. -/
theorem filename_trimmed_witness :
    openedPathsOf (execute sampleEnv DBState.empty sampleCfg).trace =
      ["data.tsv"] ∧
    (execute sampleEnv DBState.empty
        { sampleCfg with filename := "data.tsv" }).db =
      (execute sampleEnv DBState.empty sampleCfg).db := by
  obtain ⟨h1, h2⟩ := filename_trimmed
  exact ⟨h1 sampleEnv DBState.empty sampleCfg rfl,
    (h2 sampleEnv DBState.empty sampleCfg "data.tsv" (by rfl)).2.1⟩

/-- Claim C1 as stated is false: at a run whose first line is malformed,
the acknowledgment for that line is never invoked, the next line is never
processed, the run stalls instead of continuing, nothing is logged, and
no failure is recorded anywhere (the store is untouched and the code has
no failure counter at all). -/
theorem per_record_isolation_counterexample :
    Event.ack 0 ∉ (execute badLineEnv DBState.empty sampleCfg).trace ∧
    Event.lineDelivered 1 sampleLine1 ∉
      (execute badLineEnv DBState.empty sampleCfg).trace ∧
    (execute badLineEnv DBState.empty sampleCfg).outcome = .stalled ∧
    errorsOf (execute badLineEnv DBState.empty sampleCfg).trace = [] ∧
    (execute badLineEnv DBState.empty sampleCfg).db = DBState.empty := by
  decide

/-- Claim C1 amended: `onImportedLine` has no per-record error handling —
on the first line that fails to parse, the error escapes the handler as
an unhandled rejection: the run stalls, exactly the earlier well-formed
lines are acknowledged, the failing line's acknowledgment is never
invoked, no later line is delivered, and nothing is logged or counted. -/
theorem per_record_failure_not_isolated (env : Env) (db0 : DBState)
    (cfg : RunConfig) (good : List String) (bad : String)
    (rest : List String) (h1 : env.connectResult = none)
    (h2 : env.file (trimmed cfg.filename) = .ok (good ++ bad :: rest))
    (hg : parsesAll good = true) (hb : parseOk bad = false) :
    (execute env db0 cfg).outcome = .stalled ∧
    acksOf (execute env db0 cfg).trace = List.range good.length ∧
    Event.ack good.length ∉ (execute env db0 cfg).trace ∧
    (∀ j l', good.length < j →
      Event.lineDelivered j l' ∉ (execute env db0 cfg).trace) ∧
    errorsOf (execute env db0 cfg).trace = [] ∧
    summariesOf (execute env db0 cfg).trace = [] := by
  have hw : parsesAll (good ++ bad :: rest) = false := by
    simp [parsesAll, List.all_append, List.all_cons, hb]
  have hst := processLines_stall cfg.salt good db0 0 bad rest hg hb
  rw [execute_ok_stall db0 cfg h1 h2 hw, hst, Nat.zero_add]
  have hacks : acksOf
      ([Event.connected, Event.fileOpened (trimmed cfg.filename)] ++
        ((processLines cfg.salt db0 0 good).1 ++
          [Event.lineDelivered good.length bad])) =
      List.range good.length := by
    rw [acksOf_append, acksOf_append,
        acksOf_processLines cfg.salt good db0 0 hg, List.range_eq_range']
    simp [acksOf]
  refine ⟨rfl, hacks, ?_, ?_, ?_, ?_⟩
  · rw [ack_mem_iff, hacks]
    simp
  · intro j l' hj hmem
    rcases List.mem_append.mp hmem with hpre | hmid
    · simp at hpre
    · rcases List.mem_append.mp hmid with hgood | hlast
      · have := lineDelivered_mem_bound cfg.salt good db0 0 j l' hgood
        omega
      · have heq := List.mem_singleton.mp hlast
        injection heq with hji
        omega
  · rw [errorsOf_append, errorsOf_append,
        errorsOf_processLines cfg.salt good db0 0]
    rfl
  · rw [summariesOf_append, summariesOf_append,
        summariesOf_processLines cfg.salt good db0 0]
    rfl

/-- Witness for the amended C1: a file whose second line is malformed —
one acknowledgment, a stall, and no third-line delivery. -/
theorem per_record_failure_not_isolated_witness :
    (execute midBadEnv DBState.empty sampleCfg).outcome = .stalled ∧
    acksOf (execute midBadEnv DBState.empty sampleCfg).trace = List.range 1 ∧
    Event.ack 1 ∉ (execute midBadEnv DBState.empty sampleCfg).trace ∧
    Event.lineDelivered 2 sampleLine2 ∉
      (execute midBadEnv DBState.empty sampleCfg).trace := by
  have h := per_record_failure_not_isolated midBadEnv DBState.empty sampleCfg
    [sampleLine1] badLine [sampleLine2] rfl rfl (by rfl) (by rfl)
  exact ⟨h.1, h.2.1, h.2.2.1, h.2.2.2.1 2 sampleLine2 (by decide)⟩

/-- Claim C3 as stated is false: on the fatal-stream-error terminal path
the run finishes (the promise resolves) without ever releasing the store
connection — `disconnect` is not called exactly once per run on every
terminal path. -/
theorem disconnect_once_counterexample :
    disconnectsOf (execute streamFailEnv DBState.empty sampleCfg).trace = 0 ∧
    (execute streamFailEnv DBState.empty sampleCfg).outcome = .completed := by
  decide

/-- Claim C3 amended: the store connection is released exactly once on
the normal end-of-input path, and not at all when the run ends in a
fatal stream error. -/
theorem disconnect_only_on_normal_end :
    (∀ (env : Env) (db0 : DBState) (cfg : RunConfig) (lines : List String),
        env.connectResult = none →
        env.file (trimmed cfg.filename) = .ok lines →
        parsesAll lines = true →
        disconnectsOf (execute env db0 cfg).trace = 1) ∧
    (∀ (env : Env) (db0 : DBState) (cfg : RunConfig) (lines : List String)
        (msg : String),
        env.connectResult = none →
        env.file (trimmed cfg.filename) = .failAfter lines (.error msg) →
        parsesAll lines = true →
        disconnectsOf (execute env db0 cfg).trace = 0) := by
  constructor
  · intro env db0 cfg lines h1 h2 hw
    rw [execute_ok db0 cfg h1 h2 hw, disconnectsOf_append, disconnectsOf_append,
        disconnectsOf_processLines cfg.salt lines db0 0]
    rfl
  · intro env db0 cfg lines msg h1 h2 hw
    rw [execute_failAfter_error db0 cfg h1 h2 hw, disconnectsOf_append,
        disconnectsOf_append, disconnectsOf_processLines cfg.salt lines db0 0]
    rfl

/-- Witness for the amended C3: one release on the clean sample run,
none on the stream-failure run. -/
theorem disconnect_only_on_normal_end_witness :
    disconnectsOf (execute sampleEnv DBState.empty sampleCfg).trace = 1 ∧
    disconnectsOf (execute streamFailEnv DBState.empty sampleCfg).trace = 0 := by
  obtain ⟨h1, h2⟩ := disconnect_only_on_normal_end
  exact ⟨h1 sampleEnv DBState.empty sampleCfg
      [sampleLine1, sampleLine2, sampleLine3] rfl rfl (by rfl),
    h2 streamFailEnv DBState.empty sampleCfg [sampleLine1] "EIO" rfl rfl
      (by rfl)⟩

/-- Claim C4 as stated is false: a fatal stream error carried by an
`Error` is not re-raised to the caller — the run resolves normally after
printing two messages, and no cleanup (no disconnect) happens either. -/
theorem fatal_error_rethrow_counterexample :
    (execute streamFailEnv DBState.empty sampleCfg).outcome ≠
      .raised (.error "EIO") ∧
    (execute streamFailEnv DBState.empty sampleCfg).outcome = .completed ∧
    errorsOf (execute streamFailEnv DBState.empty sampleCfg).trace =
      ["Cant import data from file:  data.tsv ", "EIO"] ∧
    disconnectsOf (execute streamFailEnv DBState.empty sampleCfg).trace = 0 := by
  decide

/-- Claim C4 amended: a fatal stream error that is an `Error` instance is
caught and swallowed — `execute` prints the filename and the error
message and resolves normally, with no re-raise and no resource release;
a thrown non-`Error` value is re-raised to the caller, likewise without
any cleanup. -/
theorem fatal_error_swallowed :
    (∀ (env : Env) (db0 : DBState) (cfg : RunConfig) (lines : List String)
        (msg : String),
        env.connectResult = none →
        env.file (trimmed cfg.filename) = .failAfter lines (.error msg) →
        parsesAll lines = true →
        (execute env db0 cfg).outcome = .completed ∧
        errorsOf (execute env db0 cfg).trace =
          ["Cant import data from file: " ++ cfg.filename, msg] ∧
        disconnectsOf (execute env db0 cfg).trace = 0) ∧
    (∀ (env : Env) (db0 : DBState) (cfg : RunConfig) (lines : List String)
        (t : String),
        env.connectResult = none →
        env.file (trimmed cfg.filename) = .failAfter lines (.nonError t) →
        parsesAll lines = true →
        (execute env db0 cfg).outcome = .raised (.nonError t) ∧
        disconnectsOf (execute env db0 cfg).trace = 0) := by
  constructor
  · intro env db0 cfg lines msg h1 h2 hw
    rw [execute_failAfter_error db0 cfg h1 h2 hw]
    refine ⟨rfl, ?_, ?_⟩
    · rw [errorsOf_append, errorsOf_append,
          errorsOf_processLines cfg.salt lines db0 0]
      rfl
    · rw [disconnectsOf_append, disconnectsOf_append,
          disconnectsOf_processLines cfg.salt lines db0 0]
      rfl
  · intro env db0 cfg lines t h1 h2 hw
    rw [execute_failAfter_nonError db0 cfg h1 h2 hw]
    refine ⟨rfl, ?_⟩
    rw [disconnectsOf_append,
        disconnectsOf_processLines cfg.salt lines db0 0]
    rfl

/-- Witness for the amended C4: the `Error` stream failure resolves
normally; the non-`Error` one is re-raised. -/
theorem fatal_error_swallowed_witness :
    (execute streamFailEnv DBState.empty sampleCfg).outcome = .completed ∧
    (execute nonErrorFailEnv DBState.empty sampleCfg).outcome =
      .raised (.nonError "oops") := by
  obtain ⟨h1, h2⟩ := fatal_error_swallowed
  exact ⟨(h1 streamFailEnv DBState.empty sampleCfg [sampleLine1] "EIO"
      rfl rfl (by rfl)).1,
    (h2 nonErrorFailEnv DBState.empty sampleCfg [sampleLine1] "oops"
      rfl rfl (by rfl)).1⟩

end SixCities
